import Mathlib

/-!
Verification of the CoinLedger crypto price tracker (src/src/App.jsx).

Strings are modelled as `List Char`; JavaScript `String.prototype.includes`
is modelled by `includesCL`, `String.prototype.toLowerCase` by `toLowerCL`
(mapping `Char.toLower`).  Each definition below is a direct translation of
the correspondingly named function or expression in App.jsx.  The React
component state relevant to search (`cryptos`, `searchTerm`,
`showSuggestions`, `selectedSuggestionIndex`) is collected in `AppState`,
and every handler that touches it becomes a state transformer; `step`
dispatches the user-visible events to those handlers.
-/

namespace CoinLedger

/-- JS `s.includes(sub)`: substring containment on char lists. -/
def includesCL : (s : List Char) → (sub : List Char) → Bool
  | [], sub => sub.isEmpty
  | c :: rest, sub => sub.isPrefixOf (c :: rest) || includesCL rest sub

/-- JS `s.toLowerCase()` on char lists. -/
def toLowerCL (s : List Char) : List Char := s.map Char.toLower

/-- One market asset record, restricted to the fields the search logic
reads (`id`, `name`, `symbol`); the remaining numeric fields of the
CoinGecko record are display-only and never consulted by the code under
verification. -/
structure Asset where
  id : List Char
  name : List Char
  symbol : List Char
deriving DecidableEq

/-- App.jsx lines 210-219 (`filteredCryptos`): identity on the empty query,
otherwise keep the assets whose lower-cased name or symbol contains the
lower-cased search term. -/
def filteredCryptos (cryptos : List Asset) (searchTerm : List Char) : List Asset :=
  if searchTerm = [] then cryptos
  else
    let lowerCaseSearchTerm := toLowerCL searchTerm
    cryptos.filter fun crypto =>
      includesCL (toLowerCL crypto.name) lowerCaseSearchTerm ||
      includesCL (toLowerCL crypto.symbol) lowerCaseSearchTerm

/-- App.jsx lines 113-123 (`searchSuggestions`): empty for the empty query,
otherwise the same filter as `filteredCryptos` truncated to 8 entries. -/
def searchSuggestions (cryptos : List Asset) (searchTerm : List Char) : List Asset :=
  if searchTerm = [] then []
  else
    let lowerCaseSearchTerm := toLowerCL searchTerm
    (cryptos.filter fun crypto =>
      includesCL (toLowerCL crypto.name) lowerCaseSearchTerm ||
      includesCL (toLowerCL crypto.symbol) lowerCaseSearchTerm).take 8

/-- The spec's matching predicate: the query occurs case-insensitively as a
substring of the display name or of the symbol. -/
def CaseInsensitiveSubstring (q : List Char) (a : Asset) : Prop :=
  (∃ l r, toLowerCL a.name = l ++ toLowerCL q ++ r) ∨
  (∃ l r, toLowerCL a.symbol = l ++ toLowerCL q ++ r)

/-- Sample assets used to instantiate the universally quantified theorems. -/
def coinBitcoin : Asset :=
  { id := ("bitcoin").data, name := ("Bitcoin").data, symbol := ("btc").data }

def coinEthereum : Asset :=
  { id := ("ethereum").data, name := ("Ethereum").data, symbol := ("eth").data }

/-- The React state slice driving the search surface: `cryptos`,
`searchTerm`, `showSuggestions` and `selectedSuggestionIndex`
(App.jsx lines 5, 6, 21, 22). -/
structure AppState where
  cryptos : List Asset
  searchTerm : List Char
  showSuggestions : Bool
  selectedSuggestionIndex : Int
deriving DecidableEq

/-- The keys handled by `handleKeyDown` (App.jsx lines 151-173). -/
inductive Key where
  | arrowDown
  | arrowUp
  | enter
  | escape
deriving DecidableEq

/-- The updater passed to `setSelectedSuggestionIndex` on ArrowDown
(App.jsx lines 154-156): `prev < searchSuggestions.length - 1 ? prev + 1 : prev`. -/
def arrowDownStep (len : Nat) (prev : Int) : Int :=
  if prev < (len : Int) - 1 then prev + 1 else prev

/-- The updater passed to `setSelectedSuggestionIndex` on ArrowUp
(App.jsx line 160): `prev > 0 ? prev - 1 : -1`. -/
def arrowUpStep (prev : Int) : Int :=
  if prev > 0 then prev - 1 else -1

/-- App.jsx lines 140-145 (`handleSearchChange`). -/
def handleSearchChange (s : AppState) (value : List Char) : AppState :=
  { s with
    searchTerm := value
    showSuggestions := decide (0 < value.length)
    selectedSuggestionIndex := -1 }

/-- App.jsx lines 177-182 (`selectSuggestion`); the `blur()` call touches
only the DOM focus, not the modelled state. -/
def selectSuggestion (s : AppState) (crypto : Asset) : AppState :=
  { s with
    searchTerm := crypto.name
    showSuggestions := false
    selectedSuggestionIndex := -1 }

/-- App.jsx lines 148-174 (`handleKeyDown`): early return when the panel is
hidden, then the four key cases.  The Enter guard
`selectedSuggestionIndex >= 0 && searchSuggestions[selectedSuggestionIndex]`
is the index-validity test made explicit through `List.get?`. -/
def handleKeyDown (s : AppState) (key : Key) : AppState :=
  if !s.showSuggestions then s
  else
    match key with
    | .arrowDown =>
      { s with selectedSuggestionIndex :=
          (arrowDownStep (searchSuggestions s.cryptos s.searchTerm).length
            s.selectedSuggestionIndex) }
    | .arrowUp =>
      { s with selectedSuggestionIndex := arrowUpStep s.selectedSuggestionIndex }
    | .enter =>
      if s.selectedSuggestionIndex ≥ 0 then
        match (searchSuggestions s.cryptos s.searchTerm).get?
            s.selectedSuggestionIndex.toNat with
        | some crypto => selectSuggestion s crypto
        | none => s
      else s
    | .escape =>
      { s with showSuggestions := false, selectedSuggestionIndex := -1 }

/-- The user-visible events that mutate the search state: typing in the
input, a key press, hovering a rendered suggestion (App.jsx line 444),
clicking outside (lines 185-196), focusing the input (line 274), and the
arrival of a fetched asset list (`setCryptos`, line 51). -/
inductive Event where
  | searchChange (value : List Char)
  | key (k : Key)
  | hover (i : Nat)
  | clickOutside
  | focus
  | refresh (data : List Asset)

def Event.isRefresh : Event → Bool
  | .refresh _ => true
  | _ => false

/-- One event applied to the state, following the corresponding handler in
App.jsx. -/
def step (s : AppState) : Event → AppState
  | .searchChange value => handleSearchChange s value
  | .key k => handleKeyDown s k
  | .hover i => { s with selectedSuggestionIndex := (i : Int) }
  | .clickOutside => { s with showSuggestions := false, selectedSuggestionIndex := -1 }
  | .focus => if 0 < s.searchTerm.length then { s with showSuggestions := true } else s
  | .refresh data => { s with cryptos := data }

/-- Side condition under which the browser can deliver an event: a hover
only fires on a rendered suggestion row, so the panel is shown and the
index is within the current suggestion list. -/
def ValidEvent (s : AppState) : Event → Prop
  | .hover i => s.showSuggestions = true ∧ i < (searchSuggestions s.cryptos s.searchTerm).length
  | _ => True

/-- The initial component state (App.jsx lines 5, 6, 21, 22). -/
def initialState : AppState :=
  { cryptos := [], searchTerm := [], showSuggestions := false,
    selectedSuggestionIndex := -1 }

/-- States reachable from the initial state by deliverable events. -/
inductive Reachable : AppState → Prop where
  | refl : Reachable initialState
  | step {s : AppState} {e : Event} : Reachable s → ValidEvent s e → Reachable (step s e)

/-- The cursor invariant claimed by the spec: the selection index is -1 or a
valid index into the current suggestion list. -/
def cursorInRange (s : AppState) : Prop :=
  s.selectedSuggestionIndex = -1 ∨
    (0 ≤ s.selectedSuggestionIndex ∧
     s.selectedSuggestionIndex <
       ((searchSuggestions s.cryptos s.searchTerm).length : Int))

instance (s : AppState) : Decidable (cursorInRange s) := by
  unfold cursorInRange; infer_instance

/-- Two assets matching the query "b", used to drive the suggestion list. -/
def coinBa : Asset := { id := ("ba").data, name := ("ba").data, symbol := ("qa").data }

def coinBb : Asset := { id := ("bb").data, name := ("bb").data, symbol := ("qb").data }

/-- A concrete run: load two matching assets, type "b", move the cursor to
index 1, then a refresh shrinks the asset list to one match. -/
def c3BadState : AppState :=
  step (step (step (step (step initialState
    (.refresh [coinBa, coinBb]))
    (.searchChange (("b").data)))
    (.key .arrowDown))
    (.key .arrowDown))
    (.refresh [coinBa])

/-- A state with the suggestion panel open on one matching suggestion and
the cursor on it, used to exercise the confirm transition. -/
def confirmDemoState : AppState :=
  { cryptos := [coinBitcoin], searchTerm := ("bit").data,
    showSuggestions := true, selectedSuggestionIndex := 0 }

/-- The displayed insight: asset name plus text body
(`setLlmInsight({ name: cryptoName, text: ... })`). -/
structure Insight where
  name : List Char
  text : List Char
deriving DecidableEq

/-- Outcome of one `getCryptoInsight` invocation: either `setLlmInsight`
with an insight or `setInsightError` with a message. -/
inductive InsightOutcome where
  | insight (i : Insight)
  | failure (msg : List Char)
deriving DecidableEq

/-- App.jsx lines 69-74: the fixed fallback templates with the asset name
substituted. -/
def fallbackInsights (cryptoName : List Char) : List (List Char) :=
  [cryptoName ++ (" is a prominent cryptocurrency in the digital asset market. It continues to attract attention from investors and traders worldwide.").data,
   cryptoName ++ (" represents a significant player in the blockchain ecosystem. Its performance often reflects broader market trends in the crypto space.").data,
   cryptoName ++ (" has established itself as a key digital asset with growing adoption and market presence.").data,
   cryptoName ++ (" continues to evolve in the competitive cryptocurrency landscape, offering unique value propositions to its community.").data]

/-- One fragment of a generated candidate (`parts[i].text`). -/
structure GeminiPart where
  text : List Char
deriving DecidableEq

structure GeminiContent where
  parts : List GeminiPart
deriving DecidableEq

structure GeminiCandidate where
  content : Option GeminiContent
deriving DecidableEq

/-- The parsed JSON body of the generative-text response; an absent or
empty `candidates` array is modelled as `[]`, an absent `content` as
`none`, and absent `parts` as `[]` (all are falsy or fail the length
check in the JS condition alike). -/
structure GeminiResult where
  candidates : List GeminiCandidate
deriving DecidableEq

/-- The HTTP response handed back by `fetch` on the insight path, with its
body already parsed (`await response.json()` succeeded). -/
structure GeminiResponse where
  ok : Bool
  status : Nat
  result : GeminiResult
deriving DecidableEq

def geminiGenericError : List Char :=
  ("Could not generate insight. Please try again.").data

/-- The JS guard on App.jsx lines 95-97: `result.candidates &&
result.candidates.length > 0 && result.candidates[0].content &&
result.candidates[0].content.parts &&
result.candidates[0].content.parts.length > 0`. -/
def hasValidCandidates (result : GeminiResult) : Bool :=
  match result.candidates with
  | c :: _ =>
    match c.content with
    | some content => !content.parts.isEmpty
    | none => false
  | [] => false

/-- App.jsx lines 93-103, the remote branch of `getCryptoInsight` after the
body is parsed: only the body structure is inspected; `response.ok` and
`response.status` are never read. -/
def getCryptoInsightRemote (cryptoName : List Char) (response : GeminiResponse) :
    InsightOutcome :=
  let result := response.result
  match result.candidates with
  | c :: _ =>
    match c.content with
    | some content =>
      match content.parts with
      | p :: _ => .insight { name := cryptoName, text := p.text }
      | [] => .failure geminiGenericError
    | none => .failure geminiGenericError
  | [] => .failure geminiGenericError

/-- App.jsx lines 61-110 (`getCryptoInsight`), with the random draw
`Math.floor(Math.random() * fallbackInsights.length)` modelled by an
arbitrary natural `rand` reduced modulo the template count.  When the key
is absent (the empty string is falsy in JS) the fallback branch runs and
the remote response is never consulted. -/
def getCryptoInsight (geminiApiKey : List Char) (cryptoName : List Char)
    (rand : Nat) (response : GeminiResponse) : InsightOutcome :=
  if geminiApiKey = [] then
    let templates := fallbackInsights cryptoName
    let randomInsight := templates.getD (rand % templates.length) []
    .insight { name := cryptoName, text := randomInsight }
  else
    getCryptoInsightRemote cryptoName response

/-- The JSON error body of a failed market-data response; a missing or
empty `error` / `message` field (both falsy in JS) is modelled as `[]`. -/
structure ErrorBody where
  error : List Char
  message : List Char
deriving DecidableEq

/-- App.jsx lines 42-46: the message of the error thrown on a non-ok
market-data response.  `body = none` is an unparseable body, in which case
the JS builds `{ message: response.statusText }`; the thrown message is
built from `errorData.error || errorData.message || 'Unknown error'`. -/
def fetchErrorMessage (status : Nat) (statusText : List Char)
    (body : Option ErrorBody) : List Char :=
  let errorData : ErrorBody :=
    match body with
    | some d => d
    | none => { error := [], message := statusText }
  ("HTTP error! Status: ").data ++ (Nat.repr status).data ++ (" - ").data ++
    (if errorData.error ≠ [] then errorData.error
     else if errorData.message ≠ [] then errorData.message
     else ("Unknown error").data)

end CoinLedger

open CoinLedger

theorem includesCL_iff (s sub : List Char) :
    includesCL s sub = true ↔ ∃ l r, s = l ++ sub ++ r := by
  induction s with
  | nil =>
    simp only [includesCL, List.isEmpty_iff]
    constructor
    · rintro rfl
      exact ⟨[], [], rfl⟩
    · rintro ⟨l, r, h⟩
      rcases List.append_eq_nil.mp h.symm with ⟨h1, h2⟩
      exact (List.append_eq_nil.mp h1).2
  | cons c rest ih =>
    simp only [includesCL, Bool.or_eq_true, List.isPrefixOf_iff_prefix, ih]
    constructor
    · rintro (⟨t, ht⟩ | ⟨l, r, hlr⟩)
      · exact ⟨[], t, by simpa using ht.symm⟩
      · exact ⟨c :: l, r, by simp [hlr]⟩
    · rintro ⟨l, r, hlr⟩
      cases l with
      | nil =>
        exact Or.inl ⟨r, by simpa using hlr.symm⟩
      | cons x l' =>
        rcases List.cons.injEq .. ▸ hlr with ⟨rfl, h2⟩
        exact Or.inr ⟨l', r, h2⟩

/-- C1: filtering with the empty query is the identity, and filtering with a
non-empty query returns exactly the assets whose name or symbol contains the
query as a case-insensitive substring, preserving the input order (the result
is a sublist of the input). -/
theorem filteredCryptos_spec (cryptos : List Asset) (q : List Char) (hq : q ≠ []) :
    filteredCryptos cryptos [] = cryptos ∧
    (filteredCryptos cryptos q).Sublist cryptos ∧
    (∀ a, a ∈ filteredCryptos cryptos q ↔ a ∈ cryptos ∧ CaseInsensitiveSubstring q a) := by
  refine ⟨by simp [filteredCryptos], ?_, ?_⟩
  · rw [filteredCryptos, if_neg hq]
    exact List.filter_sublist _
  · intro a
    rw [filteredCryptos, if_neg hq]
    simp only [List.mem_filter, Bool.or_eq_true, includesCL_iff, CaseInsensitiveSubstring]

theorem filteredCryptos_spec_witness :
    (("bit").data ≠ []) ∧
    (filteredCryptos [coinBitcoin, coinEthereum] (("bit").data)).Sublist
      [coinBitcoin, coinEthereum] :=
  ⟨by decide,
   (filteredCryptos_spec [coinBitcoin, coinEthereum] (("bit").data) (by decide)).2.1⟩

/-- C2: the suggestion list is empty for the empty query, never has more than
8 entries, and for a non-empty query equals the first 8 elements of the
filtered list (same order). -/
theorem searchSuggestions_spec (cryptos : List Asset) (q : List Char) (hq : q ≠ []) :
    searchSuggestions cryptos [] = [] ∧
    (searchSuggestions cryptos q).length ≤ 8 ∧
    searchSuggestions cryptos q = (filteredCryptos cryptos q).take 8 := by
  refine ⟨by simp [searchSuggestions], ?_, ?_⟩
  · rw [searchSuggestions, if_neg hq]
    exact List.length_take_le 8 _
  · rw [searchSuggestions, if_neg hq, filteredCryptos, if_neg hq]

theorem searchSuggestions_spec_witness :
    (("bit").data ≠ []) ∧
    searchSuggestions [coinBitcoin, coinEthereum] (("bit").data) =
      (filteredCryptos [coinBitcoin, coinEthereum] (("bit").data)).take 8 :=
  ⟨by decide,
   (searchSuggestions_spec [coinBitcoin, coinEthereum] (("bit").data) (by decide)).2.2⟩

theorem arrowDownStep_le (len : Nat) (x : Int) (h : x ≤ (len : Int) - 1) :
    arrowDownStep len x ≤ (len : Int) - 1 := by
  unfold arrowDownStep
  split <;> omega

theorem arrowUpStep_ge (x : Int) : -1 ≤ arrowUpStep x := by
  unfold arrowUpStep
  split <;> omega

/-- C4: starting from any cursor in [-1, len-1], iterated ArrowDown updates
never push the cursor past len-1 and iterated ArrowUp updates never push it
below -1 (both saturate, neither wraps). -/
theorem cursor_saturates (len : Nat) (c : Int) (h1 : -1 ≤ c)
    (h2 : c ≤ (len : Int) - 1) (n : Nat) :
    (arrowDownStep len)^[n] c ≤ (len : Int) - 1 ∧ -1 ≤ arrowUpStep^[n] c := by
  constructor
  · induction n with
    | zero => simpa using h2
    | succ k ih =>
      rw [Function.iterate_succ_apply']
      exact arrowDownStep_le len _ ih
  · induction n with
    | zero => simpa using h1
    | succ k ih =>
      rw [Function.iterate_succ_apply']
      exact arrowUpStep_ge _

theorem cursor_saturates_witness :
    (arrowDownStep 3)^[5] 1 ≤ ((3 : Nat) : Int) - 1 ∧ -1 ≤ arrowUpStep^[5] 1 :=
  cursor_saturates 3 1 (by decide) (by decide) 5

/-- C10: when the suggestion panel is hidden, every keyboard event
(ArrowDown, ArrowUp, Enter, Escape) leaves the state — query, cursor and
panel visibility — entirely unchanged. -/
theorem hidden_keydown_noop (s : AppState) (k : Key)
    (h : s.showSuggestions = false) : handleKeyDown s k = s := by
  unfold handleKeyDown
  simp [h]

theorem hidden_keydown_noop_witness :
    handleKeyDown initialState Key.arrowDown = initialState :=
  hidden_keydown_noop initialState Key.arrowDown rfl

/-- C5: Enter with cursor -1 changes nothing; Enter with the panel shown, a
non-negative cursor and a suggestion at that position sets the query to that
asset's name, hides the panel and resets the cursor to -1. -/
theorem confirm_spec (s : AppState) (a : Asset) :
    (s.selectedSuggestionIndex = -1 → handleKeyDown s .enter = s) ∧
    (s.showSuggestions = true → 0 ≤ s.selectedSuggestionIndex →
      (searchSuggestions s.cryptos s.searchTerm).get?
        s.selectedSuggestionIndex.toNat = some a →
      handleKeyDown s .enter =
        { s with
          searchTerm := a.name
          showSuggestions := false
          selectedSuggestionIndex := -1 }) := by
  constructor
  · intro h
    unfold handleKeyDown
    cases hs : s.showSuggestions with
    | false => simp
    | true => simp [h]
  · intro hs hc hg
    unfold handleKeyDown
    rw [hs]
    simp only [Bool.not_true, Bool.false_eq_true, if_false, if_neg, ge_iff_le, hc, if_pos]
    rw [hg]
    rfl

theorem confirm_spec_witness :
    handleKeyDown confirmDemoState .enter =
      { confirmDemoState with
        searchTerm := coinBitcoin.name
        showSuggestions := false
        selectedSuggestionIndex := -1 } :=
  (confirm_spec confirmDemoState coinBitcoin).2 rfl (by decide) (by decide)

theorem cursorInRange_mk (cr : List Asset) (q : List Char) (sh : Bool) (c : Int) :
    cursorInRange
      { cryptos := cr
        searchTerm := q
        showSuggestions := sh
        selectedSuggestionIndex := c } ↔
      (c = -1 ∨ (0 ≤ c ∧ c < ((searchSuggestions cr q).length : Int))) :=
  Iff.rfl

/-- C3 fails as stated: a refresh of the asset list that shrinks the
suggestion list does not clamp or reset the cursor.  After loading two
assets matching "b", typing "b" and pressing ArrowDown twice, a refresh
down to one matching asset leaves the cursor at 1 over a one-element
suggestion list — reachable, yet neither -1 nor a valid index. -/
theorem cursor_invariant_counterexample :
    Reachable c3BadState ∧ ¬ cursorInRange c3BadState := by
  constructor
  · exact Reachable.step (Reachable.step (Reachable.step (Reachable.step
      (Reachable.step Reachable.refl True.intro) True.intro) True.intro)
      True.intro) True.intro
  · decide

/-- C3 amended: the cursor invariant (cursor is -1 or a valid index into
the current suggestion list) holds initially and is preserved by every
deliverable event except an asset-list refresh; a refresh may leave the
cursor out of range. -/
theorem cursor_invariant_no_refresh :
    cursorInRange initialState ∧
    ∀ s e, cursorInRange s → ValidEvent s e → Event.isRefresh e = false →
      cursorInRange (step s e) := by
  constructor
  · exact Or.inl rfl
  · intro s e h hv hr
    cases e with
    | searchChange v => exact Or.inl rfl
    | key k =>
      show cursorInRange (handleKeyDown s k)
      unfold handleKeyDown
      cases hs : s.showSuggestions with
      | false => simpa using h
      | true =>
        cases k with
        | arrowDown =>
          simp only [Bool.not_true, Bool.false_eq_true, if_false]
          rw [cursorInRange_mk]
          unfold cursorInRange at h
          unfold arrowDownStep
          split <;> rcases h with h | ⟨h1, h2⟩ <;> omega
        | arrowUp =>
          simp only [Bool.not_true, Bool.false_eq_true, if_false]
          rw [cursorInRange_mk]
          unfold cursorInRange at h
          unfold arrowUpStep
          split <;> rcases h with h | ⟨h1, h2⟩ <;> omega
        | enter =>
          simp only [Bool.not_true, Bool.false_eq_true, if_false]
          split
          · split
            · exact Or.inl rfl
            · exact h
          · exact h
        | escape => exact Or.inl rfl
    | hover i =>
      obtain ⟨hshow, hlen⟩ := hv
      show cursorInRange { s with selectedSuggestionIndex := (i : Int) }
      rw [cursorInRange_mk]
      exact Or.inr ⟨Int.natCast_nonneg i, by exact_mod_cast hlen⟩
    | clickOutside => exact Or.inl rfl
    | focus =>
      show cursorInRange (if 0 < s.searchTerm.length then
        { s with showSuggestions := true } else s)
      split
      · exact h
      · exact h
    | refresh data => simp [Event.isRefresh] at hr

theorem cursor_invariant_no_refresh_witness :
    cursorInRange (step initialState (Event.key Key.arrowUp)) :=
  cursor_invariant_no_refresh.2 initialState (Event.key Key.arrowUp)
    cursor_invariant_no_refresh.1 True.intro rfl

theorem handleKeyDown_hidden_reset (s : AppState) (k : Key)
    (ih : s.showSuggestions = false → s.selectedSuggestionIndex = -1) :
    (handleKeyDown s k).showSuggestions = false →
    (handleKeyDown s k).selectedSuggestionIndex = -1 := by
  unfold handleKeyDown
  cases hs : s.showSuggestions with
  | false => exact ih
  | true =>
    cases k with
    | arrowDown =>
      intro hh
      simp [hs] at hh
    | arrowUp =>
      intro hh
      simp [hs] at hh
    | enter =>
      simp only [Bool.not_true, Bool.false_eq_true, if_false]
      split
      · split
        · intro _
          rfl
        · intro hh
          simp [hs] at hh
      · intro hh
        simp [hs] at hh
    | escape =>
      intro _
      rfl

theorem step_hidden_reset (s : AppState) (e : Event) (hv : ValidEvent s e)
    (ih : s.showSuggestions = false → s.selectedSuggestionIndex = -1) :
    (step s e).showSuggestions = false → (step s e).selectedSuggestionIndex = -1 := by
  cases e with
  | searchChange v =>
    intro _
    rfl
  | key k => exact handleKeyDown_hidden_reset s k ih
  | hover i =>
    intro hh
    obtain ⟨hshow, _⟩ := hv
    simp [step, hshow] at hh
  | clickOutside =>
    intro _
    rfl
  | focus =>
    show (if 0 < s.searchTerm.length then { s with showSuggestions := true }
        else s).showSuggestions = false →
      (if 0 < s.searchTerm.length then { s with showSuggestions := true }
        else s).selectedSuggestionIndex = -1
    split
    · intro hh
      simp at hh
    · exact ih
  | refresh data => exact ih

/-- In every reachable state, a hidden suggestion panel implies the cursor
is already reset to -1. -/
theorem reachable_hidden_reset {s : AppState} (h : Reachable s) :
    s.showSuggestions = false → s.selectedSuggestionIndex = -1 := by
  induction h with
  | refl =>
    intro _
    rfl
  | step hr hv ih => exact step_hidden_reset _ _ hv ih

/-- C8: from any reachable state, Escape is idempotent — pressing it twice
produces the same state as pressing it once, and after either the cursor is
-1 and the panel is hidden. -/
theorem cancel_idempotent (s : AppState) (h : Reachable s) :
    handleKeyDown (handleKeyDown s .escape) .escape = handleKeyDown s .escape ∧
    (handleKeyDown s .escape).selectedSuggestionIndex = -1 ∧
    (handleKeyDown s .escape).showSuggestions = false := by
  cases hs : s.showSuggestions with
  | false =>
    have hcur := reachable_hidden_reset h hs
    have hid : handleKeyDown s Key.escape = s := by
      unfold handleKeyDown
      simp [hs]
    simp only [hid]
    exact ⟨trivial, hcur, hs⟩
  | true =>
    have h1 : handleKeyDown s Key.escape =
        { s with showSuggestions := false, selectedSuggestionIndex := -1 } := by
      unfold handleKeyDown
      simp [hs]
    rw [h1]
    refine ⟨?_, rfl, rfl⟩
    unfold handleKeyDown
    simp

theorem cancel_idempotent_witness :
    handleKeyDown (handleKeyDown initialState .escape) .escape =
      handleKeyDown initialState .escape ∧
    (handleKeyDown initialState .escape).selectedSuggestionIndex = -1 ∧
    (handleKeyDown initialState .escape).showSuggestions = false :=
  cancel_idempotent initialState Reachable.refl

theorem fallbackInsights_ne_nil (cryptoName : List Char) :
    ∀ t ∈ fallbackInsights cryptoName, t ≠ [] := by
  intro t ht
  simp only [fallbackInsights, List.mem_cons, List.not_mem_nil, or_false] at ht
  rcases ht with rfl | rfl | rfl | rfl <;>
    exact fun hc => absurd (List.append_eq_nil.mp hc).2 (by decide)

/-- C6: with no insight key, `getCryptoInsight` skips the network response
entirely and returns an insight whose name is the requested asset name and
whose non-empty text is one of the fixed fallback templates with the name
substituted; this path never produces a failure. -/
theorem insight_fallback (cryptoName : List Char) (rand : Nat)
    (response : GeminiResponse) :
    ∃ i, getCryptoInsight [] cryptoName rand response = InsightOutcome.insight i ∧
      i.name = cryptoName ∧ i.text ≠ [] ∧ i.text ∈ fallbackInsights cryptoName := by
  have hlen : (fallbackInsights cryptoName).length = 4 := by
    simp [fallbackInsights]
  have hlt : rand % (fallbackInsights cryptoName).length <
      (fallbackInsights cryptoName).length := by
    rw [hlen]
    omega
  have hmem : (fallbackInsights cryptoName).getD
      (rand % (fallbackInsights cryptoName).length) [] ∈ fallbackInsights cryptoName := by
    rw [List.getD_eq_getElem _ _ hlt]
    exact List.getElem_mem hlt
  exact ⟨_, rfl, rfl, fallbackInsights_ne_nil cryptoName _ hmem, hmem⟩

theorem includesCL_append_mid (a b c d : List Char) :
    includesCL (a ++ b ++ c ++ d) b = true := by
  rw [includesCL_iff]
  exact ⟨a, c ++ d, by simp [List.append_assoc]⟩

/-- C7 fails as stated: when the server body parses but carries no error
text, the message does not fall back to the HTTP status text.  At status
404 with status text "Not Found" and a parseable empty error body, the
assembled message is the literal "Unknown error" variant and does not
contain "Not Found" at all. -/
theorem fetch_error_counterexample :
    fetchErrorMessage 404 (("Not Found").data) (some { error := [], message := [] }) =
      ("HTTP error! Status: 404 - Unknown error").data ∧
    includesCL
      (fetchErrorMessage 404 (("Not Found").data) (some { error := [], message := [] }))
      (("Not Found").data) = false := by
  constructor
  · decide
  · decide

/-- C7 amended: the failure message always contains the decimal HTTP status
code; the server's `error` text is used when present, otherwise its
`message` text; only an unparseable body falls back to the raw HTTP status
text, while a parseable body with no error text yields the literal
"Unknown error". -/
theorem fetch_error_message_spec (status : Nat) (statusText : List Char)
    (body : Option ErrorBody) :
    includesCL (fetchErrorMessage status statusText body) ((Nat.repr status).data) = true ∧
    (body = none → fetchErrorMessage status statusText body =
      ("HTTP error! Status: ").data ++ (Nat.repr status).data ++ (" - ").data ++
        (if statusText ≠ [] then statusText else ("Unknown error").data)) ∧
    (∀ d, body = some d → fetchErrorMessage status statusText body =
      ("HTTP error! Status: ").data ++ (Nat.repr status).data ++ (" - ").data ++
        (if d.error ≠ [] then d.error
         else if d.message ≠ [] then d.message
         else ("Unknown error").data)) := by
  cases body with
  | none =>
    refine ⟨includesCL_append_mid _ _ _ _, fun _ => rfl, ?_⟩
    intro d hd
    exact Option.noConfusion hd
  | some d =>
    refine ⟨includesCL_append_mid _ _ _ _, ?_, ?_⟩
    · intro hcontra
      exact Option.noConfusion hcontra
    · intro d' hd'
      cases hd'
      rfl

theorem fetch_error_message_spec_witness :
    fetchErrorMessage 404 (("Not Found").data) none =
      ("HTTP error! Status: ").data ++ (Nat.repr 404).data ++ (" - ").data ++
        (if (("Not Found").data : List Char) ≠ [] then ("Not Found").data
         else ("Unknown error").data) :=
  (fetch_error_message_spec 404 (("Not Found").data) none).2.1 rfl

/-- C9: the remote insight path never consults the HTTP success flag — the
outcome is unchanged under any values of `ok` and `status` — and whenever
the parsed body lacks the expected candidates structure (including any
non-success response with a parseable error body) the outcome is the fixed
generic failure message. -/
theorem remote_insight_ignores_ok (cryptoName : List Char) (ok1 ok2 : Bool)
    (st1 st2 : Nat) (result : GeminiResult)
    (h : hasValidCandidates result = false) :
    getCryptoInsightRemote cryptoName ⟨ok1, st1, result⟩ =
      getCryptoInsightRemote cryptoName ⟨ok2, st2, result⟩ ∧
    getCryptoInsightRemote cryptoName ⟨ok1, st1, result⟩ =
      InsightOutcome.failure geminiGenericError := by
  have hfail : ∀ ok st, getCryptoInsightRemote cryptoName ⟨ok, st, result⟩ =
      InsightOutcome.failure geminiGenericError := by
    intro ok st
    obtain ⟨cands⟩ := result
    cases cands with
    | nil => rfl
    | cons c rest =>
      obtain ⟨oc⟩ := c
      cases oc with
      | none => rfl
      | some content =>
        obtain ⟨ps⟩ := content
        cases ps with
        | nil => rfl
        | cons p pr => simp [hasValidCandidates] at h
  exact ⟨(hfail ok1 st1).trans (hfail ok2 st2).symm, hfail ok1 st1⟩

theorem remote_insight_ignores_ok_witness :
    getCryptoInsightRemote (("Bitcoin").data) ⟨false, 403, { candidates := [] }⟩ =
      getCryptoInsightRemote (("Bitcoin").data) ⟨true, 200, { candidates := [] }⟩ ∧
    getCryptoInsightRemote (("Bitcoin").data) ⟨false, 403, { candidates := [] }⟩ =
      InsightOutcome.failure geminiGenericError :=
  remote_insight_ignores_ok (("Bitcoin").data) false true 403 200
    { candidates := [] } rfl
